import Mathlib

/-!
Verification development for the dzsa-sync repository.

The definitions below are a shallow embedding of the Go source:
  - `DzsaSync.Mods`, `DzsaSync.Endpoint`, `DzsaSync.ResultOf`, `DzsaSync.QueryResponse`
    embed model/model.go.
  - `DzsaSync.servers.Store` and its operations embed the servers package
    (Store, New, Set, Get, GetAll).  The store is parametrised by the
    representation of the `Mods` slice field of a result: `List Mods` for
    value-level reasoning, and a heap reference (`DzsaSync.gomem`) when Go's
    slice aliasing semantics matter.  Go's `cp := *result` shallow struct copy
    is, in both representations, a copy of the struct value.
  - `DzsaSync.api` embeds the single-server HTTP handler of internal/api/server.go
    (after path parsing).
  - `DzsaSync.ifconfig` embeds internal/ifconfig (GetAddress, SetAddress, and
    the address-processing logic of the Run loop, one step per detection call).
  - `DzsaSync.client` embeds the response-processing logic of client.Query
    over an explicit JSON value type.
  - `DzsaSync.dzsasync` embeds cmd/dzsasync/main.go: the body of
    `runPortWorker.syncOnce` (the non-cancelled path, without the logging and
    the random jitter sleep, neither of which affects the store), and the
    trigger-channel machinery (`make(chan struct{}, 1)` becomes a Boolean
    mailbox, the non-blocking send of `onIPChanged` becomes `sendTrigger`).
-/

namespace DzsaSync

/-- model.Mods: one mod of a DayZ server (model/model.go). -/
structure Mods where
  name : String
  steamWorkshopID : Int
deriving DecidableEq

/-- model.Endpoint (model/model.go). -/
structure Endpoint where
  ip : String
  port : Int
deriving DecidableEq

/-- model.Result (model/model.go), parametrised by the representation `μ` of the
`Mods []Mods` slice field: `List Mods` gives the plain value view, a heap
pointer (`gomem.SliceRef`) gives Go's reference semantics for the slice. -/
structure ResultOf (μ : Type) where
  battlEye : Bool
  endpoint : Endpoint
  environment : String
  firstPersonOnly : Bool
  folder : String
  game : String
  gamePort : Int
  map : String
  maxPlayers : Int
  mission : String
  mods : μ
  name : String
  nameOverride : Bool
  password : Bool
  players : Int
  profile : Bool
  shard : String
  sponsor : Bool
  time : String
  timeAcceleration : Int
  vac : Bool
  version : String
deriving DecidableEq

/-- model.Result with the mods slice as a plain list of values. -/
abbrev Result := ResultOf (List Mods)

/-- Rebuild a result with the mods field transformed (used to dereference a
stored slice pointer through a heap). -/
def ResultOf.mapMods {μ ν : Type} (f : μ → ν) (r : ResultOf μ) : ResultOf ν where
  battlEye := r.battlEye
  endpoint := r.endpoint
  environment := r.environment
  firstPersonOnly := r.firstPersonOnly
  folder := r.folder
  game := r.game
  gamePort := r.gamePort
  map := r.map
  maxPlayers := r.maxPlayers
  mission := r.mission
  mods := f r.mods
  name := r.name
  nameOverride := r.nameOverride
  password := r.password
  players := r.players
  profile := r.profile
  shard := r.shard
  sponsor := r.sponsor
  time := r.time
  timeAcceleration := r.timeAcceleration
  vac := r.vac
  version := r.version

/-- model.QueryResponse (model/model.go). -/
structure QueryResponse where
  result : Result
  status : Int
deriving DecidableEq

namespace servers

/-- servers.Store: latest result per port plus the closed set of valid ports.
`byPort` embeds the Go map `map[int]*model.Result` as an association list with
unique keys (`Set` replaces in place); the stored pointers are always non-nil
because `Set` both rejects nil input and stores a fresh copy, so map values are
modelled as plain results. -/
structure Store (μ : Type) where
  byPort : List (Int × ResultOf μ)
  ports : List Int

/-- servers.New: a store accepting only the given config ports. -/
def Store.new {μ : Type} (ports : List Int) : Store μ :=
  ⟨[], ports⟩

/-- Association-list update with replacement (the Go map assignment
`s.byPort[port] = &cp`). -/
def setEntry {μ : Type} : List (Int × ResultOf μ) → Int → ResultOf μ → List (Int × ResultOf μ)
  | [], port, r => [(port, r)]
  | (p, x) :: rest, port, r =>
    if p = port then (port, r) :: rest else (p, x) :: setEntry rest port r

/-- Association-list lookup (the Go map read `s.byPort[port]`). -/
def lookupEntry {μ : Type} : List (Int × ResultOf μ) → Int → Option (ResultOf μ)
  | [], _ => none
  | (p, x) :: rest, port => if p = port then some x else lookupEntry rest port

/-- servers.Store.Set: no-op on nil result; otherwise, when the port is valid,
store a copy of the struct value (Go: `cp := *result; s.byPort[port] = &cp`). -/
def Store.set {μ : Type} (s : Store μ) (port : Int) (result : Option (ResultOf μ)) : Store μ :=
  match result with
  | none => s
  | some r =>
    if s.ports.contains port then { s with byPort := setEntry s.byPort port r } else s

/-- servers.Store.Get: `(nil, false)` when the port is not a valid config port
or has no data yet, otherwise a copy of the stored struct value.  The pair
`(*model.Result, bool)` is embedded as `Option`. -/
def Store.get {μ : Type} (s : Store μ) (port : Int) : Option (ResultOf μ) :=
  if s.ports.contains port then lookupEntry s.byPort port else none

/-- The comparison used by servers.Store.GetAll's sort
(`entries[i].Port < entries[j].Port` as a sorting order on entries). -/
def leByPort {μ : Type} (a b : Int × ResultOf μ) : Prop :=
  a.1 ≤ b.1

instance {μ : Type} : DecidableRel (leByPort (μ := μ)) :=
  fun a b => inferInstanceAs (Decidable (a.1 ≤ b.1))

instance {μ : Type} : IsTotal (Int × ResultOf μ) leByPort :=
  ⟨fun a b => Int.le_total a.1 b.1⟩

instance {μ : Type} : IsTrans (Int × ResultOf μ) leByPort :=
  ⟨fun _ _ _ hab hbc => le_trans hab hbc⟩

/-- servers.Store.GetAll: every entry whose port is valid (Go re-checks
`s.ports[port]` and non-nil-ness while iterating the map), sorted ascending by
port.  Go's nondeterministic map iteration followed by `sort.Slice` is embedded
as a sort of the association list. -/
def Store.getAll {μ : Type} (s : Store μ) : List (Int × ResultOf μ) :=
  (s.byPort.filter (fun e => s.ports.contains e.1)).insertionSort leByPort

/-- A sequence of `Set` calls, modelling an arbitrary insertion order of writes
performed by the port workers. -/
def applySets {μ : Type} (s : Store μ) (ops : List (Int × Option (ResultOf μ))) : Store μ :=
  ops.foldl (fun acc op => acc.set op.1 op.2) s

/-- Well-formedness of a reachable store: the association list has unique keys
and every key is a valid config port. -/
def Store.WF {μ : Type} (s : Store μ) : Prop :=
  (s.byPort.map Prod.fst).Nodup ∧ ∀ q ∈ s.byPort.map Prod.fst, s.ports.contains q = true

/-- The strict-by-port order in which a well-formed store's GetAll output is
arranged; antisymmetric, so sorted lists are canonical. -/
def ltOrEqByPort {μ : Type} (a b : Int × ResultOf μ) : Prop :=
  a.1 < b.1 ∨ a = b

instance {μ : Type} : IsAntisymm (Int × ResultOf μ) ltOrEqByPort := by
  constructor
  rintro a b (h1 | rfl) (h2 | h2)
  · exact absurd h2 (lt_asymm h1)
  · exact h2.symm
  · rfl
  · rfl

end servers

namespace api

/-- Outcome of the single-server HTTP handler (internal/api/server.go,
`singleHandler`), after method check and port parsing. -/
inductive SingleResp where
  | notFound
  | ok (r : Result)
deriving DecidableEq

/-- internal/api/server.go singleHandler, after the path suffix has been parsed
to a port number: `store.Get(port)`; on `ok=false` reply `http.NotFound`,
otherwise encode the result. -/
def singleHandler (store : servers.Store (List Mods)) (port : Int) : SingleResp :=
  match store.get port with
  | none => .notFound
  | some r => .ok r

/-- internal/api/server.go listHandler: the entries of `store.GetAll()`
(serialised under the "servers" key). -/
def listHandler (store : servers.Store (List Mods)) : List (Int × Result) :=
  store.getAll

end api

namespace ifconfig

/-- ifconfig.Client.GetAddress: return the cached address (the `address` field
guarded by the mutex). -/
def GetAddress (address : String) : String :=
  address

/-- ifconfig.Client.SetAddress: unconditionally overwrite the cached address.
The Go function's whole effect on the state. -/
def SetAddress (ip : String) (_address : String) : String :=
  ip

/-- The value ifconfig.Client.SetAddress returns to its caller: the Go function
has no return values, so the returned value is the unit value, independent of
the previous address. -/
def SetAddressRet (_ip : String) (_address : String) : Unit :=
  ()

/-- The initial fetch of ifconfig.Client.Run: on error, leave the address
alone; on success with a non-empty IP, overwrite it.  No callback is invoked.
A detection outcome is `none` for a failed call and `some ip` for a successful
call returning `ip`. -/
def initialFetch (resp : Option String) (address : String) : String :=
  match resp with
  | none => address
  | some ip => if ip ≠ "" then ip else address

/-- One ticker iteration of ifconfig.Client.Run: on error or empty IP, skip
(`continue`); otherwise capture the old address, overwrite with the new one,
and invoke `onChanged(old, new)` when the old address is non-empty and differs
(`onChanged` is non-nil in the program, so the nil check is dropped).  Returns
the new address and the callback invocation, if any. -/
def tickStep (resp : Option String) (address : String) : String × Option (String × String) :=
  match resp with
  | none => (address, none)
  | some ip =>
    if ip = "" then (address, none)
    else (ip, if address ≠ "" ∧ address ≠ ip then some (address, ip) else none)

/-- The ticker loop of ifconfig.Client.Run over a finite sequence of detection
outcomes, accumulating the callback invocations in order. -/
def runTicks (address : String) : List (Option String) → String × List (String × String)
  | [] => (address, [])
  | r :: rest =>
    let step := tickStep r address
    let tail := runTicks step.1 rest
    (tail.1, step.2.toList ++ tail.2)

/-- A whole run of ifconfig.Client.Run against a finite sequence of detection
outcomes: the first detection call is the initial fetch (no callback ever),
the remaining ones are ticker iterations. -/
def runWatch (address : String) : List (Option String) → String × List (String × String)
  | [] => (address, [])
  | r :: rest => runTicks (initialFetch r address) rest

end ifconfig

namespace gomem

/-- A Go slice value for the `Mods []Mods` field: the pointer part of the slice
header.  Copying the struct (Go: `cp := *result`) copies this pointer, not the
backing array. -/
abbrev SliceRef := Nat

/-- The heap of mods backing arrays, indexed by `SliceRef`. -/
abbrev Heap := List (List Mods)

/-- model.Result as the Go runtime sees it: the mods field is a reference into
the heap. -/
abbrev ResultM := ResultOf SliceRef

/-- Dereference a mods slice through the heap. -/
def readMods (h : Heap) (p : SliceRef) : List Mods :=
  h.getD p []

/-- In-place update of one element of a mods backing array
(Go: `r.Mods[i] = m`, visible through every slice sharing the array). -/
def writeMod (h : Heap) (p : SliceRef) (i : Nat) (m : Mods) : Heap :=
  h.set p ((h.getD p []).set i m)

/-- The value a reader observes when it inspects a result under a given heap:
the struct's scalar fields plus the mods read through the slice pointer. -/
def observe (h : Heap) (r : ResultM) : Result :=
  r.mapMods (readMods h)

end gomem

namespace client

/-- A JSON value, the shape of the response body handed to client.Query after
`io.ReadAll`. -/
inductive JVal where
  | null
  | bool (b : Bool)
  | num (n : Int)
  | str (s : String)
  | arr (xs : List JVal)
  | obj (fields : List (String × JVal))

/-- Go's `json.Unmarshal(b, &rawReq)` into a freshly made `map[string]any`:
an object yields its fields, `null` leaves the empty map, anything else is a
decode error. -/
def toMap : JVal → Except String (List (String × JVal))
  | .obj fs => .ok fs
  | .null => .ok []
  | _ => .error "decode response: cannot unmarshal into map"

/-- Key membership in the decoded top-level object
(Go: `if _, ok := rawReq[k]; ok`). -/
def hasKey (fs : List (String × JVal)) (k : String) : Bool :=
  fs.any (fun f => f.1 == k)

/-- Field access in a decoded JSON object; with duplicate keys the last
occurrence wins, as in Go's decoder. -/
def getField (fs : List (String × JVal)) (k : String) : Option JVal :=
  fs.foldl (fun acc f => if f.1 == k then some f.2 else acc) none

/-- Unmarshal a JSON value into a Go string field: absent or null leaves the
zero value, a string is taken as is, anything else is a type error. -/
def decString : Option JVal → Except String String
  | none => .ok ""
  | some .null => .ok ""
  | some (.str s) => .ok s
  | some _ => .error "cannot unmarshal into string"

/-- Unmarshal a JSON value into a Go int field. -/
def decInt : Option JVal → Except String Int
  | none => .ok 0
  | some .null => .ok 0
  | some (.num n) => .ok n
  | some _ => .error "cannot unmarshal into int"

/-- Unmarshal a JSON value into a Go bool field. -/
def decBool : Option JVal → Except String Bool
  | none => .ok false
  | some .null => .ok false
  | some (.bool b) => .ok b
  | some _ => .error "cannot unmarshal into bool"

/-- Unmarshal one element of the mods array into model.Mods. -/
def decModsElem : JVal → Except String Mods
  | .null => .ok ⟨"", 0⟩
  | .obj fs => do
    let n ← decString (getField fs "name")
    let i ← decInt (getField fs "steamWorkshopId")
    .ok ⟨n, i⟩
  | _ => .error "cannot unmarshal into Mods"

/-- Unmarshal the mods field into a Go `[]Mods` slice: absent or null leaves
the nil slice, an array decodes elementwise. -/
def decMods : Option JVal → Except String (List Mods)
  | none => .ok []
  | some .null => .ok []
  | some (.arr xs) => xs.mapM decModsElem
  | some _ => .error "cannot unmarshal into slice"

/-- Unmarshal the endpoint field into model.Endpoint. -/
def decEndpoint : Option JVal → Except String Endpoint
  | none => .ok ⟨"", 0⟩
  | some .null => .ok ⟨"", 0⟩
  | some (.obj fs) => do
    let ip ← decString (getField fs "ip")
    let port ← decInt (getField fs "port")
    .ok ⟨ip, port⟩
  | some _ => .error "cannot unmarshal into Endpoint"

/-- Unmarshal the result field into model.Result, field by field as Go's
decoder does for the tagged struct. -/
def decResult : Option JVal → Except String Result
  | none => .ok ⟨false, ⟨"", 0⟩, "", false, "", "", 0, "", 0, "", [], "", false, false, 0,
      false, "", false, "", 0, false, ""⟩
  | some .null => .ok ⟨false, ⟨"", 0⟩, "", false, "", "", 0, "", 0, "", [], "", false, false, 0,
      false, "", false, "", 0, false, ""⟩
  | some (.obj fs) => do
    let battlEye ← decBool (getField fs "battlEye")
    let endpoint ← decEndpoint (getField fs "endpoint")
    let environment ← decString (getField fs "environment")
    let firstPersonOnly ← decBool (getField fs "firstPersonOnly")
    let folder ← decString (getField fs "folder")
    let game ← decString (getField fs "game")
    let gamePort ← decInt (getField fs "gamePort")
    let map ← decString (getField fs "map")
    let maxPlayers ← decInt (getField fs "maxPlayers")
    let mission ← decString (getField fs "mission")
    let mods ← decMods (getField fs "mods")
    let name ← decString (getField fs "name")
    let nameOverride ← decBool (getField fs "nameOverride")
    let password ← decBool (getField fs "password")
    let players ← decInt (getField fs "players")
    let profile ← decBool (getField fs "profile")
    let shard ← decString (getField fs "shard")
    let sponsor ← decBool (getField fs "sponsor")
    let time ← decString (getField fs "time")
    let timeAcceleration ← decInt (getField fs "timeAcceleration")
    let vac ← decBool (getField fs "vac")
    let version ← decString (getField fs "version")
    .ok ⟨battlEye, endpoint, environment, firstPersonOnly, folder, game, gamePort, map,
      maxPlayers, mission, mods, name, nameOverride, password, players, profile, shard,
      sponsor, time, timeAcceleration, vac, version⟩
  | some _ => .error "cannot unmarshal into Result"

/-- Go's `json.Unmarshal(b, queryResponse)` into model.QueryResponse. -/
def decQueryResponse : JVal → Except String QueryResponse
  | .null => .ok ⟨⟨false, ⟨"", 0⟩, "", false, "", "", 0, "", 0, "", [], "", false, false, 0,
      false, "", false, "", 0, false, ""⟩, 0⟩
  | .obj fs => do
    let result ← decResult (getField fs "result")
    let status ← decInt (getField fs "status")
    .ok ⟨result, status⟩
  | _ => .error "cannot unmarshal into QueryResponse"

/-- client.Query's response processing (client/client.go, after the request has
been performed and the body read): non-200 status is an error; the body is
decoded into a generic map and a top-level "error" key is an error even with a
200 status; otherwise the body is unmarshalled into model.QueryResponse. -/
def query (statusCode : Int) (body : JVal) : Except String QueryResponse :=
  if statusCode ≠ 200 then .error "unexpected status code"
  else
    match toMap body with
    | .error e => .error e
    | .ok fs =>
      if hasKey fs "error" then .error "api error"
      else decQueryResponse body

/-- Whether an Except value is the error case. -/
def isErr {ε α : Type} : Except ε α → Bool
  | .error _ => true
  | .ok _ => false

end client

namespace dzsasync

/-- The observable outcome of one run of `syncOnce` (cmd/dzsasync/main.go,
inside runPortWorker): the store afterwards, and the address the directory
client was queried with (`none` when the attempt was skipped without calling
the client). -/
structure SyncOut where
  store : servers.Store (List Mods)
  queried : Option String

/-- runPortWorker's `syncOnce` (cmd/dzsasync/main.go lines 189-225), on the
non-cancelled path and without the jitter sleep and logging: read the cached
address, fall back to the configured static address when empty, skip when both
are empty, otherwise call the directory client and store `resp.Result` on
success.  The directory client `dzsa.Query` is a function argument, as in the
source. -/
def syncOnce (queryFn : String → Int → Except String QueryResponse)
    (cachedIP staticIP : String) (port : Int)
    (store : servers.Store (List Mods)) : SyncOut :=
  let ip := if cachedIP = "" then staticIP else cachedIP
  if ip = "" then ⟨store, none⟩
  else
    match queryFn ip port with
    | .error _ => ⟨store, some ip⟩
    | .ok resp => ⟨store.set port (some resp.result), some ip⟩

/-- syncInterval (cmd/dzsasync/main.go): 1 hour, in seconds. -/
def syncInterval : Nat := 3600

/-- The scheduler-visible state of one port worker: the trigger channel
`make(chan struct{}, 1)` is a Boolean mailbox (`pending`), `timer` is the time
remaining on the interval ticker, `syncCount` counts sync attempts. -/
structure WorkerState where
  pending : Bool
  timer : Nat
  syncCount : Nat
deriving DecidableEq

/-- The non-blocking trigger send of `onIPChanged` (cmd/dzsasync/main.go lines
148-154): a select on the send with a default case, so when a trigger is
already pending the send is dropped and the mailbox stays at one. -/
def sendTrigger (s : WorkerState) : WorkerState :=
  if s.pending then s else { s with pending := true }

/-- The `case <-trigger` branch of runPortWorker's select loop: perform one
sync attempt, then `ticker.Reset(syncInterval)`. -/
def consumeTrigger (s : WorkerState) : WorkerState :=
  { pending := false, timer := syncInterval, syncCount := s.syncCount + 1 }

/-- The `case <-ticker.C` branch of runPortWorker's select loop: perform one
sync attempt; the ticker starts a fresh interval. -/
def tickFire (s : WorkerState) : WorkerState :=
  { s with timer := syncInterval, syncCount := s.syncCount + 1 }

/-- Consume every pending trigger: since the mailbox holds at most one, this
is at most one `consumeTrigger`. -/
def drainTriggers (s : WorkerState) : WorkerState :=
  if s.pending then consumeTrigger s else s

/-- onIPChanged's fan-out (cmd/dzsasync/main.go lines 144-155): one
non-blocking trigger send to every worker. -/
def onIPChanged (ws : List WorkerState) : List WorkerState :=
  ws.map sendTrigger

end dzsasync

/-- A concrete result value, used to instantiate witness statements. -/
def exampleResult (nm : String) (players : Int) : Result :=
  ⟨false, ⟨"10.0.0.1", 1000⟩, "", false, "", "", 0, "", 0, "", [⟨"mod-a", 7⟩], nm, false,
    false, players, false, "", false, "", 0, false, "1.26"⟩

/-- A concrete result under Go slice semantics, its mods slice pointing at heap
cell 0; used to exercise the aliasing behaviour of the store's shallow struct
copy. -/
def exampleResultM : gomem.ResultM :=
  ⟨false, ⟨"10.0.0.1", 1000⟩, "", false, "", "", 0, "", 0, "", 0, "srv", false, false, 0,
    false, "", false, "", 0, false, ""⟩

/-! Support lemmas about the store embedding. -/

namespace servers

theorem lookupEntry_setEntry {μ : Type} (l : List (Int × ResultOf μ)) (p q : Int)
    (r : ResultOf μ) :
    lookupEntry (setEntry l p r) q = if q = p then some r else lookupEntry l q := by
  induction l with
  | nil =>
    simp only [setEntry, lookupEntry]
    by_cases h : p = q
    · rw [if_pos h, if_pos h.symm]
    · rw [if_neg h, if_neg (fun hh => h hh.symm)]
  | cons hd tl ih =>
    obtain ⟨a, x⟩ := hd
    simp only [setEntry]
    by_cases hap : a = p
    · rw [if_pos hap]
      simp only [lookupEntry]
      by_cases hpq : p = q
      · rw [if_pos hpq, if_pos hpq.symm]
      · rw [if_neg hpq, if_neg (fun hh => hpq hh.symm), if_neg (fun hh : a = q => hpq (hap ▸ hh))]
    · rw [if_neg hap]
      simp only [lookupEntry]
      by_cases haq : a = q
      · rw [if_pos haq, if_neg (fun hh : q = p => hap (haq.trans hh)), if_pos haq]
      · rw [if_neg haq, ih]
        by_cases hqp : q = p
        · rw [if_pos hqp, if_pos hqp]
        · rw [if_neg hqp, if_neg hqp, if_neg haq]

theorem mem_keys_setEntry {μ : Type} (l : List (Int × ResultOf μ)) (p q : Int)
    (r : ResultOf μ) :
    q ∈ (setEntry l p r).map Prod.fst ↔ q ∈ l.map Prod.fst ∨ q = p := by
  induction l with
  | nil => simp [setEntry]
  | cons hd tl ih =>
    obtain ⟨a, x⟩ := hd
    simp only [setEntry]
    by_cases hap : a = p
    · rw [if_pos hap]
      simp only [List.map_cons, List.mem_cons, hap]
      tauto
    · rw [if_neg hap]
      simp only [List.map_cons, List.mem_cons, ih]
      tauto

theorem nodup_keys_setEntry {μ : Type} (l : List (Int × ResultOf μ)) (p : Int) (r : ResultOf μ)
    (h : (l.map Prod.fst).Nodup) : ((setEntry l p r).map Prod.fst).Nodup := by
  induction l with
  | nil => simp [setEntry]
  | cons hd tl ih =>
    obtain ⟨a, x⟩ := hd
    simp only [List.map_cons, List.nodup_cons] at h
    by_cases hap : a = p
    · subst hap
      simpa [setEntry] using h
    · simp only [setEntry, if_neg hap, List.map_cons, List.nodup_cons]
      refine ⟨?_, ih h.2⟩
      rw [mem_keys_setEntry]
      rintro (hmem | rfl)
      · exact h.1 hmem
      · exact hap rfl

theorem lookupEntry_eq_some_iff {μ : Type} {l : List (Int × ResultOf μ)}
    (h : (l.map Prod.fst).Nodup) (p : Int) (r : ResultOf μ) :
    lookupEntry l p = some r ↔ (p, r) ∈ l := by
  induction l with
  | nil => simp [lookupEntry]
  | cons hd tl ih =>
    obtain ⟨a, x⟩ := hd
    simp only [List.map_cons, List.nodup_cons] at h
    simp only [lookupEntry, List.mem_cons]
    by_cases hap : a = p
    · rw [if_pos hap]
      constructor
      · intro h'
        left
        injection h' with h'
        rw [← h', hap]
      · rintro (h' | h')
        · rw [Prod.mk.injEq] at h'
          rw [h'.2]
        · exact absurd (List.mem_map_of_mem Prod.fst h') (hap ▸ h.1)
    · rw [if_neg hap, ih h.2]
      constructor
      · exact Or.inr
      · rintro (h' | h')
        · rw [Prod.mk.injEq] at h'
          exact absurd h'.1.symm hap
        · exact h'

theorem wf_new {μ : Type} (ports : List Int) : (Store.new (μ := μ) ports).WF := by
  constructor <;> simp [Store.new]

theorem ports_set {μ : Type} (s : Store μ) (p : Int) (r : Option (ResultOf μ)) :
    (s.set p r).ports = s.ports := by
  cases r with
  | none => rfl
  | some r =>
    simp only [Store.set]
    split <;> rfl

theorem wf_set {μ : Type} (s : Store μ) (p : Int) (r : Option (ResultOf μ)) (h : s.WF) :
    (s.set p r).WF := by
  cases r with
  | none => exact h
  | some r =>
    simp only [Store.set]
    split
    case isTrue hc =>
      refine ⟨nodup_keys_setEntry _ _ _ h.1, ?_⟩
      intro q hq
      rw [mem_keys_setEntry] at hq
      rcases hq with hq | rfl
      · exact h.2 q hq
      · exact hc
    case isFalse hc => exact h

theorem applySets_cons {μ : Type} (s : Store μ) (op : Int × Option (ResultOf μ))
    (ops : List (Int × Option (ResultOf μ))) :
    applySets s (op :: ops) = applySets (s.set op.1 op.2) ops :=
  rfl

theorem ports_applySets {μ : Type} (s : Store μ) (ops : List (Int × Option (ResultOf μ))) :
    (applySets s ops).ports = s.ports := by
  induction ops generalizing s with
  | nil => rfl
  | cons op ops ih => rw [applySets_cons, ih, ports_set]

theorem wf_applySets {μ : Type} (s : Store μ) (ops : List (Int × Option (ResultOf μ)))
    (h : s.WF) : (applySets s ops).WF := by
  induction ops generalizing s with
  | nil => exact h
  | cons op ops ih =>
    rw [applySets_cons]
    exact ih _ (wf_set _ _ _ h)

theorem lookupEntry_applySets_of_ne {μ : Type} (s : Store μ)
    (ops : List (Int × Option (ResultOf μ))) (p : Int) (h : ∀ op ∈ ops, op.1 ≠ p) :
    lookupEntry (applySets s ops).byPort p = lookupEntry s.byPort p := by
  induction ops generalizing s with
  | nil => rfl
  | cons op ops ih =>
    obtain ⟨q, ropt⟩ := op
    have hq : q ≠ p := h _ (List.mem_cons_self _ _)
    rw [applySets_cons, ih _ (fun o ho => h o (List.mem_cons_of_mem _ ho))]
    cases ropt with
    | none => rfl
    | some r =>
      simp only [Store.set]
      split
      · simp only [lookupEntry_setEntry]
        rw [if_neg (fun hpe => hq hpe.symm)]
      · rfl

theorem get_new {μ : Type} (ports : List Int) (p : Int) :
    (Store.new (μ := μ) ports).get p = none := by
  simp only [Store.new, Store.get, lookupEntry, ite_self]

theorem get_set_self {μ : Type} (s : Store μ) (p : Int) (r : ResultOf μ)
    (h : s.ports.contains p = true) :
    (s.set p (some r)).get p = some r := by
  simp only [Store.set, Store.get]
  rw [if_pos h]
  rw [if_pos h, lookupEntry_setEntry, if_pos rfl]

theorem pairwise_and_of {α : Type} {R S : α → α → Prop} {l : List α}
    (h1 : l.Pairwise R) (h2 : l.Pairwise S) :
    l.Pairwise (fun a b => R a b ∧ S a b) := by
  induction l with
  | nil => exact List.Pairwise.nil
  | cons a l ih =>
    rw [List.pairwise_cons] at h1 h2 ⊢
    exact ⟨fun b hb => ⟨h1.1 b hb, h2.1 b hb⟩, ih h1.2 h2.2⟩

theorem sorted_getAll {μ : Type} (s : Store μ) : List.Sorted leByPort s.getAll :=
  List.sorted_insertionSort _ _

theorem nodup_keys_getAll {μ : Type} {s : Store μ} (h : s.WF) :
    (s.getAll.map Prod.fst).Nodup := by
  have hperm : List.Perm s.getAll (s.byPort.filter (fun e => s.ports.contains e.1)) :=
    List.perm_insertionSort _ _
  refine ((hperm.map Prod.fst).nodup_iff).mpr ?_
  have hsub : List.Sublist ((s.byPort.filter (fun e => s.ports.contains e.1)).map Prod.fst)
      (s.byPort.map Prod.fst) :=
    (List.filter_sublist _).map _
  exact h.1.sublist hsub

theorem mem_getAll_iff {μ : Type} {s : Store μ} (h : s.WF) (p : Int) (r : ResultOf μ) :
    (p, r) ∈ s.getAll ↔ (s.ports.contains p = true ∧ lookupEntry s.byPort p = some r) := by
  rw [Store.getAll, List.mem_insertionSort, List.mem_filter, lookupEntry_eq_some_iff h.1]
  exact ⟨fun hh => ⟨hh.2, hh.1⟩, fun hh => ⟨hh.2, hh.1⟩⟩

theorem sorted_ltOrEq_getAll {μ : Type} {s : Store μ} (h : s.WF) :
    List.Sorted (ltOrEqByPort (μ := μ)) s.getAll := by
  have h1 : List.Pairwise (leByPort (μ := μ)) s.getAll := sorted_getAll s
  have h2 : List.Pairwise (fun a b : Int × ResultOf μ => a.1 ≠ b.1) s.getAll :=
    List.pairwise_map.mp (nodup_keys_getAll h)
  exact (pairwise_and_of h1 h2).imp (fun hab => Or.inl (lt_of_le_of_ne hab.1 hab.2))

theorem getAll_eq_of_get_eq {μ : Type} {s1 s2 : Store μ} (h1 : s1.WF) (h2 : s2.WF)
    (hports : s1.ports = s2.ports) (hget : ∀ p, s1.get p = s2.get p) :
    s1.getAll = s2.getAll := by
  have hmem : ∀ a : Int × ResultOf μ, a ∈ s1.getAll ↔ a ∈ s2.getAll := by
    rintro ⟨p, r⟩
    rw [mem_getAll_iff h1, mem_getAll_iff h2, ← hports]
    constructor
    · rintro ⟨hc, hl⟩
      refine ⟨hc, ?_⟩
      have hg : s2.get p = some r := by
        rw [← hget p, Store.get, if_pos hc]
        exact hl
      rw [Store.get, ← hports, if_pos hc] at hg
      exact hg
    · rintro ⟨hc, hl⟩
      refine ⟨hc, ?_⟩
      have hg : s1.get p = some r := by
        rw [hget p, Store.get, ← hports, if_pos hc]
        exact hl
      rw [Store.get, if_pos hc] at hg
      exact hg
  have hnd1 : s1.getAll.Nodup := (nodup_keys_getAll h1).of_map _
  have hnd2 : s2.getAll.Nodup := (nodup_keys_getAll h2).of_map _
  exact List.eq_of_perm_of_sorted ((List.perm_ext_iff_of_nodup hnd1 hnd2).mpr hmem)
    (sorted_ltOrEq_getAll h1) (sorted_ltOrEq_getAll h2)

theorem byPort_applySets_congr {μ : Type} (p : Int)
    (ops : List (Int × Option (ResultOf μ))) (hops : ∀ op ∈ ops, op.1 ≠ p)
    (b : List (Int × ResultOf μ)) (ports1 ports2 : List Int)
    (hagree : ∀ q, q ≠ p → ports1.contains q = ports2.contains q) :
    (applySets ⟨b, ports1⟩ ops).byPort = (applySets ⟨b, ports2⟩ ops).byPort := by
  induction ops generalizing b with
  | nil => rfl
  | cons op ops ih =>
    obtain ⟨q, ropt⟩ := op
    have hq : q ≠ p := hops _ (List.mem_cons_self _ _)
    have hopstl : ∀ op ∈ ops, op.1 ≠ p := fun o ho => hops o (List.mem_cons_of_mem _ ho)
    rw [applySets_cons, applySets_cons]
    cases ropt with
    | none => exact ih hopstl b
    | some r =>
      simp only [Store.set]
      rw [hagree q hq]
      by_cases hc : ports2.contains q = true
      · rw [if_pos hc, if_pos hc]
        exact ih hopstl (setEntry b q r)
      · rw [if_neg hc, if_neg hc]
        exact ih hopstl b

end servers

/-! Claim theorems. -/

/-- C4: for every insertion order of writes into the ResultStore, `getAll`
returns exactly the entries that have data, as (port, result) pairs sorted in
strictly ascending port order; and any two write sequences over the same
configured ports whose final per-port contents agree produce identical `getAll`
sequences, so repeated calls with no intervening writes are identical. -/
theorem c4_getAll_sorted_exact (ports : List Int) (ops ops2 : List (Int × Option Result)) :
    List.Pairwise (fun a b : Int => a < b)
      ((servers.applySets (servers.Store.new ports) ops).getAll.map Prod.fst) ∧
    (∀ p r, (p, r) ∈ (servers.applySets (servers.Store.new ports) ops).getAll ↔
      ((servers.applySets (servers.Store.new ports) ops).ports.contains p = true ∧
        servers.lookupEntry (servers.applySets (servers.Store.new ports) ops).byPort p
          = some r)) ∧
    ((∀ p, (servers.applySets (servers.Store.new ports) ops2).get p
        = (servers.applySets (servers.Store.new ports) ops).get p) →
      (servers.applySets (servers.Store.new ports) ops2).getAll
        = (servers.applySets (servers.Store.new ports) ops).getAll) := by
  have hwf : (servers.applySets (servers.Store.new ports) ops).WF :=
    servers.wf_applySets _ _ (servers.wf_new ports)
  have hwf2 : (servers.applySets (servers.Store.new ports) ops2).WF :=
    servers.wf_applySets _ _ (servers.wf_new ports)
  refine ⟨?_, ?_, ?_⟩
  · have h1 := servers.sorted_getAll (servers.applySets (servers.Store.new ports) ops)
    have h2 : List.Pairwise
        (fun a b : Int × Result => a.1 ≠ b.1)
        (servers.applySets (servers.Store.new ports) ops).getAll :=
      List.pairwise_map.mp (servers.nodup_keys_getAll hwf)
    exact List.pairwise_map.mpr
      ((servers.pairwise_and_of h1 h2).imp (fun hab => lt_of_le_of_ne hab.1 hab.2))
  · intro p r
    exact servers.mem_getAll_iff hwf p r
  · intro hgets
    refine servers.getAll_eq_of_get_eq hwf2 hwf ?_ hgets
    rw [servers.ports_applySets, servers.ports_applySets]

/-- Witness for C4: two writes arriving out of port order, plus a redundant
rewrite in the second sequence; the sorted output and the order-insensitivity
both hold at this concrete input. -/
theorem c4_getAll_sorted_exact_witness :
    List.Pairwise (fun a b : Int => a < b)
      ((servers.applySets (servers.Store.new [2000, 1000])
        [(2000, some (exampleResult "b" 2)), (1000, some (exampleResult "a" 1))]).getAll.map
          Prod.fst) ∧
    (servers.applySets (servers.Store.new [2000, 1000])
        [(2000, some (exampleResult "b" 2)), (1000, some (exampleResult "a" 1)),
          (2000, some (exampleResult "b" 2))]).getAll
      = (servers.applySets (servers.Store.new [2000, 1000])
        [(2000, some (exampleResult "b" 2)), (1000, some (exampleResult "a" 1))]).getAll :=
  ⟨(c4_getAll_sorted_exact [2000, 1000]
      [(2000, some (exampleResult "b" 2)), (1000, some (exampleResult "a" 1))] []).1,
    (c4_getAll_sorted_exact [2000, 1000]
      [(2000, some (exampleResult "b" 2)), (1000, some (exampleResult "a" 1))]
      [(2000, some (exampleResult "b" 2)), (1000, some (exampleResult "a" 1)),
        (2000, some (exampleResult "b" 2))]).2.2 (fun _ => rfl)⟩

/-- C5: a `set` for a port outside the configured set, or with a nil result, is
a no-op: the store state is unchanged, so `getAll` and every `get` are
unaffected. -/
theorem c5_set_noop (ports : List Int) (ops : List (Int × Option Result)) (p : Int)
    (r : Result) (hp : ports.contains p = false) :
    ((servers.applySets (servers.Store.new ports) ops).set p (some r)
        = servers.applySets (servers.Store.new ports) ops) ∧
    (∀ (s : servers.Store (List Mods)) (q : Int), s.set q none = s) ∧
    (((servers.applySets (servers.Store.new ports) ops).set p (some r)).getAll
        = (servers.applySets (servers.Store.new ports) ops).getAll) ∧
    (∀ q, ((servers.applySets (servers.Store.new ports) ops).set p (some r)).get q
        = (servers.applySets (servers.Store.new ports) ops).get q) := by
  have hp' : (servers.applySets (servers.Store.new ports) ops).ports.contains p = false := by
    rw [servers.ports_applySets]
    exact hp
  have hset : (servers.applySets (servers.Store.new ports) ops).set p (some r)
      = servers.applySets (servers.Store.new ports) ops := by
    simp only [servers.Store.set]
    rw [if_neg (by rw [hp']; exact Bool.false_ne_true)]
  refine ⟨hset, fun s q => rfl, ?_, ?_⟩
  · rw [hset]
  · intro q
    rw [hset]

/-- Witness for C5: port 7 is not in the configured set, so setting it changes
nothing. -/
theorem c5_set_noop_witness :
    ((servers.applySets (servers.Store.new [1000, 2000])
        [(1000, some (exampleResult "a" 1))]).set 7 (some (exampleResult "x" 9))
      = servers.applySets (servers.Store.new [1000, 2000])
        [(1000, some (exampleResult "a" 1))]) ∧
    (((servers.applySets (servers.Store.new [1000, 2000])
        [(1000, some (exampleResult "a" 1))]).set 7 (some (exampleResult "x" 9))).getAll
      = (servers.applySets (servers.Store.new [1000, 2000])
        [(1000, some (exampleResult "a" 1))]).getAll) :=
  ⟨(c5_set_noop [1000, 2000] [(1000, some (exampleResult "a" 1))] 7 (exampleResult "x" 9)
      (by decide)).1,
    (c5_set_noop [1000, 2000] [(1000, some (exampleResult "a" 1))] 7 (exampleResult "x" 9)
      (by decide)).2.2.1⟩

/-- C8: `getOne` (Store.Get) returns not-found both for a port outside the
configured set and for a configured port that never had a successful sync, and
the HTTP single-server handler maps both to the same not-found response; two
stores differing only in whether the port is configured (with no write ever
targeting it) are observationally indistinguishable through the read API. -/
theorem c8_not_found_indistinguishable (ports : List Int) (p : Int)
    (ops : List (Int × Option Result)) (hp : ports.contains p = false)
    (hops : ∀ op ∈ ops, op.1 ≠ p) :
    ((servers.applySets (servers.Store.new ports) ops).get p = none ∧
      (servers.applySets (servers.Store.new (p :: ports)) ops).get p = none) ∧
    (api.singleHandler (servers.applySets (servers.Store.new ports) ops) p
        = api.SingleResp.notFound ∧
      api.singleHandler (servers.applySets (servers.Store.new (p :: ports)) ops) p
        = api.SingleResp.notFound) ∧
    (∀ q, api.singleHandler (servers.applySets (servers.Store.new ports) ops) q
        = api.singleHandler (servers.applySets (servers.Store.new (p :: ports)) ops) q) ∧
    api.listHandler (servers.applySets (servers.Store.new ports) ops)
      = api.listHandler (servers.applySets (servers.Store.new (p :: ports)) ops) := by
  have hagree : ∀ q : Int, q ≠ p → ports.contains q = (p :: ports).contains q := by
    intro q hq
    rw [List.contains_cons]
    have : (q == p) = false := beq_eq_false_iff_ne.mpr hq
    rw [this, Bool.false_or]
  have hbp : (servers.applySets (servers.Store.new ports) ops).byPort
      = (servers.applySets (servers.Store.new (p :: ports)) ops).byPort :=
    servers.byPort_applySets_congr p ops hops [] ports (p :: ports) hagree
  have hports1 : (servers.applySets (servers.Store.new ports) ops).ports = ports :=
    servers.ports_applySets _ _
  have hports2 : (servers.applySets (servers.Store.new (p :: ports)) ops).ports = p :: ports :=
    servers.ports_applySets _ _
  have hlk : servers.lookupEntry (servers.applySets (servers.Store.new ports) ops).byPort p
      = none :=
    servers.lookupEntry_applySets_of_ne _ ops p hops
  have hget1 : (servers.applySets (servers.Store.new ports) ops).get p = none := by
    rw [servers.Store.get, hports1, hp]
    rfl
  have hget2 : (servers.applySets (servers.Store.new (p :: ports)) ops).get p = none := by
    rw [servers.Store.get, ← hbp, hlk, ite_self]
  have hgetq : ∀ q, (servers.applySets (servers.Store.new ports) ops).get q
      = (servers.applySets (servers.Store.new (p :: ports)) ops).get q := by
    intro q
    by_cases hq : q = p
    · rw [hq, hget1, hget2]
    · rw [servers.Store.get, servers.Store.get, hports1, hports2, ← hagree q hq, hbp]
  refine ⟨⟨hget1, hget2⟩, ⟨?_, ?_⟩, ?_, ?_⟩
  · rw [api.singleHandler, hget1]
  · rw [api.singleHandler, hget2]
  · intro q
    rw [api.singleHandler, api.singleHandler, hgetq q]
  · rw [api.listHandler, api.listHandler, servers.Store.getAll, servers.Store.getAll, ← hbp,
      hports1, hports2]
    have hkeys : ∀ e ∈ (servers.applySets (servers.Store.new ports) ops).byPort,
        ports.contains e.1 = (p :: ports).contains e.1 := by
      intro e he
      refine hagree e.1 (fun hep => ?_)
      have hwf : (servers.applySets (servers.Store.new ports) ops).WF :=
        servers.wf_applySets _ _ (servers.wf_new ports)
      have := hwf.2 e.1 (List.mem_map_of_mem Prod.fst he)
      rw [hports1, hep, hp] at this
      exact Bool.false_ne_true this
    rw [List.filter_congr hkeys]

/-- Witness for C8: port 7 is unconfigured in the first store and configured
but never synced in the second; both look identical to the read API. -/
theorem c8_not_found_indistinguishable_witness :
    ((servers.applySets (servers.Store.new [1000]) [(1000, some (exampleResult "a" 1))]).get 7
        = none ∧
      (servers.applySets (servers.Store.new ((7 : Int) :: [1000]))
        [(1000, some (exampleResult "a" 1))]).get 7 = none) ∧
    api.listHandler (servers.applySets (servers.Store.new [1000])
        [(1000, some (exampleResult "a" 1))])
      = api.listHandler (servers.applySets (servers.Store.new ((7 : Int) :: [1000]))
        [(1000, some (exampleResult "a" 1))]) :=
  ⟨(c8_not_found_indistinguishable [1000] 7 [(1000, some (exampleResult "a" 1))]
      (by decide) (by decide)).1,
    (c8_not_found_indistinguishable [1000] 7 [(1000, some (exampleResult "a" 1))]
      (by decide) (by decide)).2.2.2⟩

/-- C1: in a sync attempt, an empty cached address falls back to the static
configured address; when both are empty the attempt is skipped without calling
the directory client or touching the store; otherwise the client is called and
the store entry for the port is written exactly when the call succeeds — so a
failed first attempt leaves `getOne` at found=false and a later successful
attempt makes it found=true with that attempt's result. -/
theorem c1_sync_attempt (queryFn qf qs : String → Int → Except String QueryResponse)
    (ports : List Int) (port : Int) (addr staticIP : String)
    (s : servers.Store (List Mods)) (hport : ports.contains port = true)
    (hsport : s.ports.contains port = true) :
    (staticIP ≠ "" → (dzsasync.syncOnce queryFn "" staticIP port s).queried = some staticIP) ∧
    ((dzsasync.syncOnce queryFn "" "" port s).store = s ∧
      (dzsasync.syncOnce queryFn "" "" port s).queried = none) ∧
    (addr ≠ "" → (dzsasync.syncOnce queryFn addr staticIP port s).queried = some addr) ∧
    (∀ e, addr ≠ "" → queryFn addr port = Except.error e →
      (dzsasync.syncOnce queryFn addr staticIP port s).store = s) ∧
    (∀ resp, addr ≠ "" → queryFn addr port = Except.ok resp →
      (dzsasync.syncOnce queryFn addr staticIP port s).store
          = s.set port (some resp.result) ∧
      (dzsasync.syncOnce queryFn addr staticIP port s).store.get port
          = some resp.result) ∧
    (∀ e resp, addr ≠ "" → qf addr port = Except.error e → qs addr port = Except.ok resp →
      (dzsasync.syncOnce qf addr staticIP port (servers.Store.new ports)).store.get port
          = none ∧
      (dzsasync.syncOnce qs addr staticIP port
        (dzsasync.syncOnce qf addr staticIP port (servers.Store.new ports)).store).store.get
          port = some resp.result) := by
  refine ⟨?_, ?_, ?_, ?_, ?_, ?_⟩
  · intro hs
    have h1 : (if ("" : String) = "" then staticIP else "") = staticIP := if_pos rfl
    rw [dzsasync.syncOnce, h1, if_neg hs]
    cases hq : queryFn staticIP port <;> simp [hq]
  · constructor <;> rfl
  · intro ha
    rw [dzsasync.syncOnce]
    simp only [if_neg ha]
    cases hq : queryFn addr port <;> simp [hq]
  · intro e ha hq
    rw [dzsasync.syncOnce]
    simp only [if_neg ha, hq]
  · intro resp ha hq
    rw [dzsasync.syncOnce]
    simp only [if_neg ha, hq]
    exact ⟨by trivial, servers.get_set_self s port resp.result hsport⟩
  · intro e resp ha hqf hqs
    constructor
    · rw [dzsasync.syncOnce]
      simp only [if_neg ha, hqf]
      exact servers.get_new ports port
    · rw [dzsasync.syncOnce, dzsasync.syncOnce]
      simp only [if_neg ha, hqf, hqs]
      exact servers.get_set_self _ port resp.result hport

/-- Witness for C1: a client that always fails, then one that succeeds, on
port 1000 with cached address 1.1.1.1; and static-address fallback from an
empty cache. -/
theorem c1_sync_attempt_witness :
    (dzsasync.syncOnce (fun _ _ => Except.ok ⟨exampleResult "a" 1, 200⟩) "" "9.9.9.9" 1000
        (servers.Store.new [1000])).queried = some "9.9.9.9" ∧
    (dzsasync.syncOnce (fun _ _ => Except.error "boom") "1.1.1.1" "" 1000
        (servers.Store.new [1000])).store.get 1000 = none ∧
    (dzsasync.syncOnce (fun _ _ => Except.ok ⟨exampleResult "a" 1, 200⟩) "1.1.1.1" "" 1000
        (dzsasync.syncOnce (fun _ _ => Except.error "boom") "1.1.1.1" "" 1000
          (servers.Store.new [1000])).store).store.get 1000
      = some (exampleResult "a" 1) := by
  have h := c1_sync_attempt (fun _ _ => Except.ok ⟨exampleResult "a" 1, 200⟩)
    (fun _ _ => Except.error "boom") (fun _ _ => Except.ok ⟨exampleResult "a" 1, 200⟩)
    [1000] 1000 "1.1.1.1" "9.9.9.9" (servers.Store.new [1000]) (by decide) (by decide)
  have hs := h.2.2.2.2.2 "boom" ⟨exampleResult "a" 1, 200⟩ (by decide) rfl rfl
  exact ⟨h.1 (by decide), hs.1, hs.2⟩

theorem sendTrigger_pending (s : dzsasync.WorkerState) :
    dzsasync.sendTrigger s = { s with pending := true } := by
  rw [dzsasync.sendTrigger]
  split
  case isTrue h =>
    cases s
    simp_all
  case isFalse h => rfl

theorem sendTrigger_iterate (s : dzsasync.WorkerState) (n : Nat) :
    dzsasync.sendTrigger^[n + 1] s = { s with pending := true } := by
  induction n with
  | zero =>
    rw [Function.iterate_one]
    exact sendTrigger_pending s
  | succ n ih =>
    rw [Function.iterate_succ_apply', ih, dzsasync.sendTrigger, if_pos rfl]

theorem sendTrigger_idem (t : dzsasync.WorkerState) :
    dzsasync.sendTrigger (dzsasync.sendTrigger t) = dzsasync.sendTrigger t := by
  rw [sendTrigger_pending t, dzsasync.sendTrigger, if_pos rfl]

/-- C2: the trigger mailbox holds at most one pending trigger — further sends
while one is pending are dropped (sending is idempotent, and so is the whole
IP-change fan-out); draining after any number of back-to-back sends performs
exactly one extra sync attempt, not two; and consuming a trigger performs one
sync attempt and resets the interval timer to the full interval, leaving no
pending trigger behind. -/
theorem c2_trigger_coalescing (s : dzsasync.WorkerState) (n : Nat) :
    (∀ t, dzsasync.sendTrigger (dzsasync.sendTrigger t) = dzsasync.sendTrigger t) ∧
    (∀ ws, dzsasync.onIPChanged (dzsasync.onIPChanged ws) = dzsasync.onIPChanged ws) ∧
    (dzsasync.sendTrigger^[n + 1] s = dzsasync.sendTrigger s) ∧
    ((dzsasync.drainTriggers (dzsasync.sendTrigger^[n + 1] s)).syncCount
        = s.syncCount + 1 ∧
      (dzsasync.drainTriggers (dzsasync.sendTrigger^[n + 1] s)).timer
        = dzsasync.syncInterval ∧
      (dzsasync.drainTriggers (dzsasync.sendTrigger^[n + 1] s)).pending = false) ∧
    (∀ t, dzsasync.consumeTrigger t
      = ⟨false, dzsasync.syncInterval, t.syncCount + 1⟩) := by
  refine ⟨sendTrigger_idem, ?_, ?_, ?_, fun t => rfl⟩
  · intro ws
    induction ws with
    | nil => rfl
    | cons w ws ih =>
      simp only [dzsasync.onIPChanged, List.map_cons] at ih ⊢
      rw [sendTrigger_idem, ih]
  · rw [sendTrigger_iterate, sendTrigger_pending]
  · rw [sendTrigger_iterate, dzsasync.drainTriggers, if_pos rfl]
    exact ⟨rfl, rfl, rfl⟩

/-- C6: for a watcher run from an empty cached address over detection outcomes
[A ok, A ok, B ok], the change callback fires exactly once, with (A, B), after
the third call — not after the first (first population) nor the second (no
change); and a failed detection call leaves the address untouched and never
fires the callback. -/
theorem c6_callback_once (A B : String) (hA : A ≠ "") (hB : B ≠ "") (hAB : A ≠ B) :
    (ifconfig.runWatch "" [some A]).2 = [] ∧
    (ifconfig.runWatch "" [some A, some A]).2 = [] ∧
    ifconfig.runWatch "" [some A, some A, some B] = (B, [(A, B)]) ∧
    (∀ a, ifconfig.tickStep none a = (a, none)) ∧
    (∀ a, ifconfig.initialFetch none a = a) := by
  refine ⟨rfl, ?_, ?_, fun a => rfl, fun a => rfl⟩
  · simp [ifconfig.runWatch, ifconfig.runTicks, ifconfig.initialFetch, ifconfig.tickStep, hA]
  · simp [ifconfig.runWatch, ifconfig.runTicks, ifconfig.initialFetch, ifconfig.tickStep,
      hA, hB, hAB]

/-- Witness for C6 at concrete addresses. -/
theorem c6_callback_once_witness :
    ifconfig.runWatch "" [some "192.0.2.1", some "192.0.2.1", some "192.0.2.2"]
      = ("192.0.2.2", [("192.0.2.1", "192.0.2.2")]) ∧
    (ifconfig.runWatch "" [some "192.0.2.1", some "192.0.2.1"]).2 = [] :=
  ⟨(c6_callback_once "192.0.2.1" "192.0.2.2" (by decide) (by decide) (by decide)).2.2.1,
    (c6_callback_once "192.0.2.1" "192.0.2.2" (by decide) (by decide) (by decide)).2.1⟩

/-- C7 counterexample: SetAddress has no return value — the value of the second
`set` call is the unit value, identical no matter what the previous address
was, so it does not (and cannot) return the previous value `a1`. -/
theorem c7_counterexample :
    ifconfig.SetAddressRet "2.2.2.2" "1.1.1.1" = ifconfig.SetAddressRet "2.2.2.2" "9.9.9.9" ∧
    "1.1.1.1" ≠ "9.9.9.9" :=
  ⟨rfl, by decide⟩

/-- C7 amended: SetAddress unconditionally overwrites and GetAddress afterwards
returns the last value written (`a2`); SetAddress returns nothing, and the
previous value used for change detection is instead captured inline by the Run
loop, which reads the old address and writes the new one in one critical
section and passes (old, new) to the callback. -/
theorem c7_amended_overwrite (a1 a2 s : String) (h1 : a1 ≠ "") (h2 : a1 ≠ a2)
    (h3 : a2 ≠ "") :
    ifconfig.GetAddress (ifconfig.SetAddress a2 (ifconfig.SetAddress a1 s)) = a2 ∧
    (∀ prev, ifconfig.SetAddressRet a2 prev = ()) ∧
    ifconfig.tickStep (some a2) a1 = (a2, some (a1, a2)) := by
  refine ⟨rfl, fun prev => rfl, ?_⟩
  simp [ifconfig.tickStep, h1, h2, h3]

/-- Witness for C7's amended statement at concrete addresses. -/
theorem c7_amended_overwrite_witness :
    ifconfig.GetAddress (ifconfig.SetAddress "2.2.2.2" (ifconfig.SetAddress "1.1.1.1" ""))
      = "2.2.2.2" ∧
    ifconfig.tickStep (some "2.2.2.2") "1.1.1.1" = ("2.2.2.2", some ("1.1.1.1", "2.2.2.2")) :=
  ⟨(c7_amended_overwrite "1.1.1.1" "2.2.2.2" "" (by decide) (by decide) (by decide)).1,
    (c7_amended_overwrite "1.1.1.1" "2.2.2.2" "" (by decide) (by decide) (by decide)).2.2⟩

theorem tickStep_fst_ne (a : String) (resp : Option String) (h : a ≠ "") :
    (ifconfig.tickStep resp a).1 ≠ "" := by
  cases resp with
  | none => exact h
  | some ip =>
    simp only [ifconfig.tickStep]
    by_cases hip : ip = ""
    · rw [if_pos hip]
      exact h
    · rw [if_neg hip]
      exact hip

theorem initialFetch_ne (a : String) (resp : Option String) (h : a ≠ "") :
    ifconfig.initialFetch resp a ≠ "" := by
  cases resp with
  | none => exact h
  | some ip =>
    simp only [ifconfig.initialFetch]
    by_cases hip : ip = ""
    · rw [if_neg (fun hh : ip ≠ "" => hh hip)]
      exact h
    · rw [if_pos hip]
      exact hip

theorem runTicks_fst_ne (resps : List (Option String)) :
    ∀ a : String, a ≠ "" → (ifconfig.runTicks a resps).1 ≠ "" := by
  induction resps with
  | nil => exact fun a h => h
  | cons r rest ih =>
    intro a h
    simp only [ifconfig.runTicks]
    exact ih _ (tickStep_fst_ne a r h)

/-- C9: the watcher loop writes the cache only on a successful detection call
with a non-empty IP — failures and empty-IP successes change nothing and fire
no callback — so once the cached address is non-empty it never becomes empty
again for the rest of the run. -/
theorem c9_nonempty_preserved (address : String) (resps : List (Option String))
    (h : address ≠ "") :
    (ifconfig.runTicks address resps).1 ≠ "" ∧
    (ifconfig.runWatch address resps).1 ≠ "" ∧
    (∀ a (resp : Option String), a ≠ "" → (ifconfig.tickStep resp a).1 ≠ "") ∧
    (∀ a (resp : Option String), a ≠ "" → ifconfig.initialFetch resp a ≠ "") ∧
    (∀ a, ifconfig.tickStep (some "") a = (a, none)) ∧
    (∀ a, ifconfig.initialFetch (some "") a = a) ∧
    (∀ a, ifconfig.tickStep none a = (a, none)) ∧
    (∀ a, ifconfig.initialFetch none a = a) := by
  refine ⟨runTicks_fst_ne resps address h, ?_, fun a r ha => tickStep_fst_ne a r ha,
    fun a r ha => initialFetch_ne a r ha, fun a => rfl, fun a => rfl, fun a => rfl,
    fun a => rfl⟩
  cases resps with
  | nil => exact h
  | cons r rest => exact runTicks_fst_ne rest _ (initialFetch_ne address r h)

/-- Witness for C9: a run that starts populated and sees a failure, an empty-IP
success, and a new address, never emptying the cache. -/
theorem c9_nonempty_preserved_witness :
    (ifconfig.runTicks "1.2.3.4" [none, some "", some "5.6.7.8"]).1 ≠ "" ∧
    ifconfig.tickStep (some "") "1.2.3.4" = ("1.2.3.4", none) :=
  ⟨(c9_nonempty_preserved "1.2.3.4" [none, some "", some "5.6.7.8"] (by decide)).1,
    (c9_nonempty_preserved "1.2.3.4" [] (by decide)).2.2.2.2.1 "1.2.3.4"⟩

/-- C3, evaluated at the failing input: `Set` stores a shallow struct copy
(Go `cp := *result`), which copies the Mods slice header but shares its backing
array with the caller; after the caller overwrites element 0 of its own mods
slice, a subsequent `Get` observes the mutated element, not the list as it was
when `Set` ran — contradicting the claim (and the code's own comment that the
copy prevents caller mutation after Set). -/
theorem c3_shallow_copy_aliasing :
    ((((servers.Store.new (μ := gomem.SliceRef) [1000]).set 1000
        (some exampleResultM)).get 1000).map
          (fun x => gomem.readMods
            (gomem.writeMod [[⟨"m", 1⟩]] exampleResultM.mods 0 ⟨"changed", 1⟩) x.mods)
      = some [⟨"changed", 1⟩]) ∧
    ((((servers.Store.new (μ := gomem.SliceRef) [1000]).set 1000
        (some exampleResultM)).get 1000).map
          (fun x => gomem.readMods [[⟨"m", 1⟩]] x.mods)
      = some [⟨"m", 1⟩]) := by
  constructor <;> rfl

/-- C10: whenever the response body's top-level JSON object contains an "error"
key, Query returns an error and no result — even when the HTTP status code is
200 — so a directory-service error reported in the body is never stored as a
successful sync result by a port worker. -/
theorem c10_body_error_key (statusCode : Int) (fs : List (String × client.JVal))
    (h : client.hasKey fs "error" = true) :
    client.isErr (client.query statusCode (client.JVal.obj fs)) = true ∧
    (∀ resp, client.query statusCode (client.JVal.obj fs) ≠ Except.ok resp) ∧
    (∀ (s : servers.Store (List Mods)) (cachedIP staticIP : String) (port : Int),
      (dzsasync.syncOnce (fun _ _ => client.query statusCode (client.JVal.obj fs))
        cachedIP staticIP port s).store = s) := by
  have herr : ∃ e, client.query statusCode (client.JVal.obj fs) = Except.error e := by
    rw [client.query]
    by_cases hs : statusCode = 200
    · rw [if_neg (fun hh : statusCode ≠ 200 => hh hs)]
      simp only [client.toMap]
      rw [if_pos h]
      exact ⟨_, rfl⟩
    · rw [if_pos hs]
      exact ⟨_, rfl⟩
  obtain ⟨e, he⟩ := herr
  refine ⟨by rw [he]; rfl, ?_, ?_⟩
  · intro resp hok
    rw [he] at hok
    exact Except.noConfusion hok
  · intro s cachedIP staticIP port
    rw [dzsasync.syncOnce]
    by_cases hip : (if cachedIP = "" then staticIP else cachedIP) = ""
    · rw [if_pos hip]
    · rw [if_neg hip]
      simp only [he]

/-- Witness for C10: a 200-status body reporting an error is rejected. -/
theorem c10_body_error_key_witness :
    client.isErr (client.query 200
      (client.JVal.obj [("error", client.JVal.str "host unreachable")])) = true :=
  (c10_body_error_key 200 [("error", client.JVal.str "host unreachable")] (by decide)).1

end DzsaSync
